import Mathlib

/-!
Verification of the encrypted-events demo: a shallow embedding of the
off-chain key agreement, AAD builder, event-record codec, decryption
pipeline and listen loop of the repository, together with theorems
settling the specification claims.

Bytes are modelled as `List Nat` (each entry one octet).  External
cryptographic primitives (the SHA-2 compression functions, X25519 and
the Deoxys-II AEAD engine) are collaborators the repository consumes
but does not implement; they appear as explicit function parameters,
while every construction the repository itself fixes (the HMAC keying
with the MRAE label, the HKDF block schedule, nonce truncation, AAD
formatting, log scanning) is translated concretely from the source.
-/

namespace EncEvents

/-- Bytes: one `Nat` per octet. -/
abbrev Bytes := List Nat

/-- UTF-8 bytes of an ASCII string (every label in the source is ASCII). -/
def strBytes (s : String) : Bytes :=
  s.data.map Char.toNat

/-- The MRAE domain-separation label string. -/
def mraeBoxLabelStr : String :=
  "MRAE_Box_Deoxys-II-256-128"

/-- The application-context string of the per-message HKDF stage. -/
def sapphireEventsInfoStr : String :=
  "sapphire:events"

/-- Message of the internal throw when `aadmode=sender` finds no sender. -/
def missingSenderMsg : String :=
  "Internal: sender missing from event for aadmode=sender"

/-- Message of the not-found throw when a target contract was given. -/
def notFoundForContractMsg : String :=
  "Encrypted event not found for the provided contract in this transaction"

/-- Message of the not-found throw when no target contract was given. -/
def notFoundMsg : String :=
  "Encrypted event not found in tx logs"

/-- Message of the ambiguity throw. -/
def ambiguousMsg : String :=
  "Ambiguous: multiple Encrypted events"

/-- Message standing for the AEAD engine rejecting a wrong-size key. -/
def invalidKeySizeMsg : String :=
  "invalid key size"

/-- Message standing for the ABI encoder rejecting a wrong-size bytes32. -/
def invalidBytes32Msg : String :=
  "invalid bytes32 value"

/-- Message of the ECDH emit throw on a wrong-size caller secret. -/
def invalidSecretMsg : String :=
  "Caller secret must be 32 bytes"

/-- Message standing for the X25519 library rejecting a wrong-size scalar. -/
def invalidScalarMsg : String :=
  "invalid scalar length"

/-- The error line printed by the listen handlers on a caught failure. -/
def listenFailureMsg : String :=
  "Failed to decrypt event:"

/-- Deoxys-II nonce size: the AEAD engine consumes 15-byte nonces
(`NonceSize` from the deoxysii library). -/
def NonceSize : Nat := 15

/-- Deoxys-II key size in bytes (`KeySize` from the deoxysii library). -/
def KeySize : Nat := 32

/-- HMAC over an arbitrary hash function with the given block size:
`H((k xor opad) ++ H((k xor ipad) ++ msg))`, the construction used by
`hmac(sha512_256, label, shared)` in the key-derivation helper. -/
def hmacBytes (hash : Bytes → Bytes) (blockSize : Nat) (key msg : Bytes) : Bytes :=
  let k0 := if blockSize < key.length then hash key else key
  let kPadded := k0 ++ List.replicate (blockSize - k0.length) 0
  let ipadKey := kPadded.map (fun b => b ^^^ 0x36)
  let opadKey := kPadded.map (fun b => b ^^^ 0x5c)
  hash (opadKey ++ hash (ipadKey ++ msg))

/-- The fixed domain-separation label used by Sapphire for MRAE boxes,
from `deriveSapphireSymmetricKeyFromShared`. -/
def mraeBoxLabel : Bytes := strBytes mraeBoxLabelStr

/-- `deriveSapphireSymmetricKeyFromShared` from the repository's
key-derivation helper: `hmac(sha512_256, label, shared)` with the fixed
MRAE label as the HMAC key (SHA-512/256 has a 128-byte block).  The
hash is the external SHA-512/256 compression, passed as `sha512x256`. -/
def deriveSapphireSymmetricKeyFromShared (sha512x256 : Bytes → Bytes)
    (shared : Bytes) : Bytes :=
  hmacBytes sha512x256 128 mraeBoxLabel shared

/-- Modelled from the spec: `mraeDeoxysii.deriveSymmetricKey` of the
external Oasis client runtime, which the README documents as mirroring
Sapphire's on-chain derivation — the X25519 shared secret of the
caller's secret and the peer public key, fed through the HMAC extractor
keyed by the fixed MRAE label.  `x25519mult` is the external scalar
multiplication (secret, public) ↦ shared secret. -/
def mraeDeriveSymmetricKey (sha512x256 : Bytes → Bytes)
    (x25519mult : Bytes → Bytes → Bytes)
    (publicKey secretKey : Bytes) : Bytes :=
  deriveSapphireSymmetricKeyFromShared sha512x256 (x25519mult secretKey publicKey)

/-- `deriveEcdhKey` from the unified task: fetch the contract's public
key (supplied here as `contractPk`) and apply
`mraeDeoxysii.deriveSymmetricKey(contractPk, callerSecret)`. -/
def deriveEcdhKey (sha512x256 : Bytes → Bytes)
    (x25519mult : Bytes → Bytes → Bytes)
    (contractPk callerSecret : Bytes) : Bytes :=
  mraeDeriveSymmetricKey sha512x256 x25519mult contractPk callerSecret

/-- RFC 5869 HKDF expand block schedule, as performed by node's
`hkdfSync`: `T(i) = HMAC(prk, T(i-1) ++ info ++ [i])`, blocks
concatenated.  `count` is the number of blocks still to produce,
`prev` the previous block, `i` the next counter octet. -/
def hkdfBlocks (hmacH : Bytes → Bytes → Bytes) (prk info : Bytes) :
    Bytes → Nat → Nat → Bytes
  | _, _, 0 => []
  | prev, i, Nat.succ count =>
    let t := hmacH prk (prev ++ info ++ [i])
    t ++ hkdfBlocks hmacH prk info t (i + 1) count

/-- RFC 5869 HKDF (extract then expand) over an HMAC instance with
output size `hashLen`, as performed by node's
`hkdfSync(digest, ikm, salt, info, keylen)`. -/
def hkdfBytes (hmacH : Bytes → Bytes → Bytes) (hashLen : Nat)
    (ikm salt info : Bytes) (keylen : Nat) : Bytes :=
  let prk := hmacH salt ikm
  let nblocks := keylen / hashLen + (if keylen % hashLen = 0 then 0 else 1)
  (hkdfBlocks hmacH prk info [] 1 nblocks).take keylen

/-- The fixed application-context string of the per-message HKDF stage,
from the `hkdfSync(..., Buffer.from("sapphire:events"), 32)` calls. -/
def sapphireEventsInfo : Bytes := strBytes sapphireEventsInfoStr

/-- The `--hkdf` command-line flag default: hardhat flags are boolean
and default to `false` when not passed. -/
def hkdfFlagDefault : Bool := false

/-- The per-event key selection of the ECDH decrypt/listen paths: with
`--hkdf` the key is `hkdfSync("sha256", baseKey, n15, "sapphire:events", 32)`
(HMAC-SHA256 has a 64-byte block and 32-byte output); without it the
session key is used unchanged. -/
def ecdhMessageKey (sha256 : Bytes → Bytes) (hkdfFlag : Bool)
    (baseKey n15 : Bytes) : Bytes :=
  if hkdfFlag then
    hkdfBytes (hmacBytes sha256 64) 32 baseKey n15 sapphireEventsInfo 32
  else baseKey

/-- The error taxonomy of the pipeline.  Each constructor carries the
message of the corresponding `throw new Error(...)` in the source (or,
for errors raised inside an external collaborator, a message standing
for that library's rejection). -/
inductive DecErr
  | invalidKeyLength (msg : String)
  | invalidSecretLength (msg : String)
  | missingSender (msg : String)
  | eventNotFound (msg : String)
  | ambiguousMatch (msg : String)
  | authenticationFailed (msg : String)
  deriving DecidableEq, Repr

/-- The three AAD binding modes of the unified task (`--aadmode`). -/
inductive AadMode
  | noAad
  | senderBound
  | contextBound
  deriving DecidableEq, Repr

/-- Big-endian fixed-width encoding of a natural number, most
significant byte first. -/
def beBytes (w : Nat) (n : Nat) : Bytes :=
  (List.range w).map (fun i => n / 256 ^ (w - 1 - i) % 256)

/-- Modelled from the spec: `ethers.solidityPacked(["uint256","address"],
[chainId, contractAddr])` of the external ethers library — the 32-byte
big-endian chain id immediately followed by the 20-byte address. -/
def solidityPackedUintAddr (chainId : Nat) (contractAddr : Bytes) : Bytes :=
  beBytes 32 chainId ++ contractAddr

/-- `getAadBytes` from the unified task: `sender` mode returns the
event's sender bytes and throws when the event carries none; `context`
mode packs `(chainId, contractAddr)`; otherwise the AAD is empty. -/
def getAadBytes (aadmode : AadMode) (senderFromEvent : Option Bytes)
    (chainId : Nat) (contractAddr : Bytes) : Except DecErr Bytes :=
  match aadmode with
  | AadMode.senderBound =>
    match senderFromEvent with
    | Option.none =>
            Except.error (DecErr.missingSender missingSenderMsg)
    | Option.some s => Except.ok s
  | AadMode.contextBound => Except.ok (solidityPackedUintAddr chainId contractAddr)
  | AadMode.noAad => Except.ok []

/- ------------------------------------------------------------------
Event record codec: scanning a receipt's logs (decrypt action).
------------------------------------------------------------------ -/

/-- The decoded content of a raw log entry, keyed by its event
signature (topic0).  `senderShape` is the current
`Encrypted(address indexed sender, bytes32 nonce, bytes ciphertext)`
shape; `legacyShape` is the historical sender-less
`Encrypted(bytes32 nonce, bytes ciphertext)` shape, whose topic0
differs; `otherShape` stands for any unrelated event. -/
inductive LogShape
  | senderShape (sender : Bytes) (nonce : Bytes) (ciphertext : Bytes)
  | legacyShape (nonce : Bytes) (ciphertext : Bytes)
  | otherShape (topic : String)
  deriving DecidableEq, Repr

/-- A raw log entry of a transaction receipt. -/
structure RawLog where
  address : String
  shape : LogShape
  deriving DecidableEq, Repr

/-- An `Encrypted` event as decoded by the minimal interface of the
decrypt action (`args[0] = sender`, `args[1] = nonce`,
`args[2] = ciphertext`). -/
structure ParsedEncrypted where
  sender : Bytes
  nonce : Bytes
  ciphertext : Bytes
  deriving DecidableEq, Repr

/-- `iface.parseLog` with the minimal single-event interface
`Encrypted(address indexed sender, bytes32 nonce, bytes ciphertext)`:
a log parses iff its topic0 is that signature's hash; the legacy
sender-less shape and unrelated events have different topics and
yield no parse. -/
def parseEncrypted : LogShape → Option ParsedEncrypted
  | LogShape.senderShape s n c => Option.some ⟨s, n, c⟩
  | LogShape.legacyShape _ _ => Option.none
  | LogShape.otherShape _ => Option.none

/-- ASCII lower-casing, as `String.toLowerCase()` acts on hex
addresses. -/
def lowerStr (s : String) : String :=
  String.mk (s.data.map Char.toLower)

/-- One entry of the `matches` array of the decrypt action: the parse
together with the lower-cased emitting address. -/
structure EventMatch where
  parsed : ParsedEncrypted
  address : String
  deriving DecidableEq, Repr

/-- The matching loop of the decrypt action: walk the receipt's logs;
when a target is set, skip a log whose lower-cased address differs
before any decode is attempted; otherwise collect every successful
`Encrypted` parse. -/
def matchesOf (target : Option String) : List RawLog → List EventMatch
  | [] => []
  | l :: ls =>
    let rest := matchesOf target ls
    let skip : Bool :=
      match target with
      | Option.some t => lowerStr l.address != t
      | Option.none => false
    if skip then rest
    else
      match parseEncrypted l.shape with
      | Option.some p => { parsed := p, address := lowerStr l.address } :: rest
      | Option.none => rest

/-- The warning printed when several matches are found without a
target contract. -/
def multipleMatchesWarning : String :=
  "Warning: Multiple Encrypted events found in this tx across different contracts. Please re-run with --contract <ADDR> to disambiguate."

/-- The outcome of scanning a receipt in the decrypt action: the
warnings printed, and either the chosen match (`matches[0]`) or the
terminal error, following the source's order of checks. -/
def scanReceipt (contract : Option String) (logs : List RawLog) :
    List String × Except DecErr EventMatch :=
  let target := contract.map lowerStr
  match matchesOf target logs with
  | [] =>
    ([], Except.error (DecErr.eventNotFound
      (match target with
       | Option.some _ => notFoundForContractMsg
       | Option.none => notFoundMsg)))
  | m :: rest =>
    if target.isNone && !rest.isEmpty then
      ([multipleMatchesWarning],
       Except.error (DecErr.ambiguousMatch ambiguousMsg))
    else ([], Except.ok m)

/- ------------------------------------------------------------------
Decryption pipeline.
------------------------------------------------------------------ -/

/-- The type of the external AEAD engine's authenticated decrypt:
(key, 15-byte nonce, ciphertext, aad) to plaintext or failure.  The
engine is a collaborator; every theorem quantifies over it. -/
abbrev AeadDecrypt := Bytes → Bytes → Bytes → Bytes → Except DecErr Bytes

/-- Modelled from the spec: the AEAD engine is a 256-bit-key cipher and
its constructor (`new AEAD(key)`) rejects a key that is not exactly
`KeySize = 32` bytes before any decryption is attempted. -/
def aeadKeyCheck (key : Bytes) : Except DecErr Bytes :=
  if key.length = KeySize then Except.ok key
  else Except.error (DecErr.invalidKeyLength invalidKeySizeMsg)

/-- The key-mode decrypt call of the pipeline: construct the AEAD over
the supplied key, then `aead.decrypt(getBytes(nonce).slice(0, NonceSize),
ciphertext, aadBytes)` — only the first 15 bytes of the stored 32-byte
nonce reach the engine. -/
def decryptKeyMode (aeadD : AeadDecrypt) (key nonce ciphertext aadBytes : Bytes) :
    Except DecErr Bytes :=
  (aeadKeyCheck key).bind (fun k => aeadD k (nonce.take NonceSize) ciphertext aadBytes)

/-- The ECDH decrypt call of the pipeline: truncate the nonce to
`n15`, select the per-message key (HKDF stage if `--hkdf`, the session
key unchanged otherwise), construct the AEAD and decrypt. -/
def decryptEcdhMode (aeadD : AeadDecrypt) (sha256 : Bytes → Bytes)
    (hkdfFlag : Bool) (baseKey nonce ciphertext aadBytes : Bytes) :
    Except DecErr Bytes :=
  let n15 := nonce.take NonceSize
  (aeadKeyCheck (ecdhMessageKey sha256 hkdfFlag baseKey n15)).bind
    (fun k => aeadD k n15 ciphertext aadBytes)

/- ------------------------------------------------------------------
Emit-side key material resolution.
------------------------------------------------------------------ -/

/-- `keyHex = key ?? ethers.hexlify(ethers.randomBytes(32))` of the
key-mode emit action: the supplied key verbatim, or the freshly
generated random value when absent. -/
def resolveEmitKey (supplied : Option Bytes) (fresh : Bytes) : Bytes :=
  supplied.getD fresh

/-- Modelled from the spec: ABI encoding of the `bytes32 key` call
argument by the external ethers library rejects a value that is not
exactly 32 bytes before the transaction is sent. -/
def encodeBytes32 (b : Bytes) : Except DecErr Bytes :=
  if b.length = 32 then Except.ok b
  else Except.error (DecErr.invalidKeyLength invalidBytes32Msg)

/-- The key-mode emit action up to the contract call: resolve the key
(supplied or fresh) and encode it as the `bytes32` argument. -/
def emitKeyModeCall (supplied : Option Bytes) (fresh : Bytes) : Except DecErr Bytes :=
  encodeBytes32 (resolveEmitKey supplied fresh)

/-- The ECDH emit action's caller-secret resolution:
`callerSecretBytes = secret ? getBytes(secret) : randomBytes(32)`,
then `if (callerSecretBytes.length !== 32) throw`. -/
def emitEcdhPrep (secret : Option Bytes) (fresh : Bytes) : Except DecErr Bytes :=
  let callerSecretBytes := secret.getD fresh
  if callerSecretBytes.length ≠ 32 then
    Except.error (DecErr.invalidSecretLength invalidSecretMsg)
  else Except.ok callerSecretBytes

/-- Modelled from the spec: the external X25519 scalar multiplication
(inside `mraeDeoxysii.deriveSymmetricKey`) rejects a caller secret
that is not exactly 32 bytes before any curve operation. -/
def deriveEcdhKeyChecked (sha512x256 : Bytes → Bytes)
    (x25519mult : Bytes → Bytes → Bytes)
    (contractPk callerSecret : Bytes) : Except DecErr Bytes :=
  if callerSecret.length ≠ 32 then
    Except.error (DecErr.invalidSecretLength invalidScalarMsg)
  else Except.ok (deriveEcdhKey sha512x256 x25519mult contractPk callerSecret)

/- ------------------------------------------------------------------
Listen loop.
------------------------------------------------------------------ -/

/-- One event as delivered to the registered listener: the positional
callback arguments (`nonce`, `ciphertext`) and the event payload from
which the sender is read (`event?.args?.sender ?? event?.args?.[0]`). -/
structure DeliveredEvent where
  nonce : Bytes
  ciphertext : Bytes
  senderNamed : Option Bytes
  firstArg : Option Bytes
  deriving DecidableEq, Repr

/-- `event?.args?.sender ?? event?.args?.[0]` of the listen handlers. -/
def senderFromEvent (ev : DeliveredEvent) : Option Bytes :=
  match ev.senderNamed with
  | Option.some s => Option.some s
  | Option.none => ev.firstArg

/-- What one delivery of the listen loop produces: a decrypted
plaintext line, or the caught-and-reported failure line. -/
inductive ListenReport
  | decrypted (plaintext : Bytes)
  | failedMsg (msg : String)
  deriving DecidableEq, Repr

/-- The body of the key-mode listen callback, before its surrounding
`try`/`catch`: read the sender from the payload, build the AAD and
decrypt with the session AEAD. -/
def listenBody (aeadD : AeadDecrypt) (key : Bytes) (aadmode : AadMode)
    (chainId : Nat) (contractAddr : Bytes) (ev : DeliveredEvent) :
    Except DecErr Bytes :=
  (getAadBytes aadmode (senderFromEvent ev) chainId contractAddr).bind
    (fun aadBytes => decryptKeyMode aeadD key ev.nonce ev.ciphertext aadBytes)

/-- The registered listen callback: the body wrapped in the source's
`try`/`catch` — an error is reported, never re-thrown. -/
def listenCallback (aeadD : AeadDecrypt) (key : Bytes) (aadmode : AadMode)
    (chainId : Nat) (contractAddr : Bytes) (ev : DeliveredEvent) : ListenReport :=
  match listenBody aeadD key aadmode chainId contractAddr ev with
  | Except.ok pt => ListenReport.decrypted pt
  | Except.error _ => ListenReport.failedMsg listenFailureMsg

/-- Whether one character list begins with another (used to state that
an output string does or does not mention an address). -/
def listLeads : List Char → List Char → Bool
  | [], _ => true
  | _ :: _, [] => false
  | a :: as, b :: bs => a == b && listLeads as bs

/-- Whether `needle` occurs as a substring of `hay`. -/
def strContains (needle hay : String) : Bool :=
  (List.range (hay.data.length + 1)).any
    (fun i => listLeads needle.data (hay.data.drop i))

/-- Modelled from the spec: the external subscription delivers each
raw event to the registered callback independently and in arrival
order; since the callback returns (it catches its own errors), the
life of the subscription is the per-event map of the callback. -/
def runListen (handler : DeliveredEvent → ListenReport)
    (events : List DeliveredEvent) : List ListenReport :=
  events.map handler

/- ------------------------------------------------------------------
Concrete data used by witnesses and counterexamples.
------------------------------------------------------------------ -/

/-- A candidate contract address (40 hex digits). -/
def addrA : String :=
  "0xaaaaaaaaaaaaaaaaaaaaaaaaaaaaaaaaaaaaaaaa"

/-- A second, different candidate contract address. -/
def addrB : String :=
  "0xbbbbbbbbbbbbbbbbbbbbbbbbbbbbbbbbbbbbbbbb"

/-- A sender-shape log at `addrA`. -/
def logAtA : RawLog :=
  { address := addrA
    shape := LogShape.senderShape (List.replicate 20 1) (List.replicate 32 2)
      (List.replicate 20 3) }

/-- A sender-shape log at `addrB`. -/
def logAtB : RawLog :=
  { address := addrB
    shape := LogShape.senderShape (List.replicate 20 4) (List.replicate 32 5)
      (List.replicate 20 6) }

/-- A legacy-shape (sender-less) log at `addrA`. -/
def legacyLogAtA : RawLog :=
  { address := addrA
    shape := LogShape.legacyShape (List.replicate 32 2) (List.replicate 20 3) }

/-- An unrelated log at `addrB`. -/
def otherEventStr : String :=
  "Transfer(address,address,uint256)"

/-- An unrelated-event log at `addrB`. -/
def otherLogAtB : RawLog :=
  { address := addrB, shape := LogShape.otherShape otherEventStr }

/- ------------------------------------------------------------------
Helper lemmas.
------------------------------------------------------------------ -/

/-- Scanning with a target visits exactly the logs whose lower-cased
address equals the target. -/
theorem matchesOf_filter_target (t : String) (logs : List RawLog) :
    matchesOf (Option.some t) logs
      = matchesOf (Option.some t)
          (logs.filter (fun l => lowerStr l.address == t)) := by
  induction logs with
  | nil => rfl
  | cons l ls ih =>
    by_cases h : lowerStr l.address = t
    · have hb : (lowerStr l.address == t) = true := beq_iff_eq.mpr h
      simp [matchesOf, List.filter_cons, hb, ih]
    · have hb : (lowerStr l.address == t) = false := by
        simp [beq_iff_eq, h]
      simp [matchesOf, List.filter_cons, hb, ih]
      exact fun hh => absurd hh h

/-- A list of logs containing only legacy-shape entries produces no
match, for any target. -/
theorem matchesOf_legacy_nil (target : Option String) (logs : List RawLog)
    (hleg : ∀ l ∈ logs, ∃ n c, l.shape = LogShape.legacyShape n c) :
    matchesOf target logs = [] := by
  induction logs with
  | nil => rfl
  | cons l ls ih =>
    obtain ⟨n, c, hs⟩ := hleg l (List.mem_cons_self l ls)
    have ihls := ih (fun x hx => hleg x (List.mem_cons_of_mem l hx))
    cases target with
    | none => simp [matchesOf, hs, parseEncrypted, ihls]
    | some t => simp [matchesOf, hs, parseEncrypted, ihls]

/-- HKDF with a single block reduces to one HMAC call. -/
theorem hkdfBlocks_one (hmacH : Bytes → Bytes → Bytes) (prk info prev : Bytes)
    (i : Nat) :
    hkdfBlocks hmacH prk info prev i 1 = hmacH prk (prev ++ info ++ [i]) := by
  simp [hkdfBlocks]

/-- The length of an HMAC output is the hash output length. -/
theorem hmacBytes_length (hash : Bytes → Bytes)
    (hLen : ∀ m, (hash m).length = 32) (blockSize : Nat) (key msg : Bytes) :
    (hmacBytes hash blockSize key msg).length = 32 := by
  simp [hmacBytes, hLen]

/-- A 32-byte HKDF output over a 32-byte HMAC is exactly one block. -/
theorem hkdfBytes_len_32 (hmacH : Bytes → Bytes → Bytes)
    (hH : ∀ k m, (hmacH k m).length = 32) (ikm salt info : Bytes) :
    (hkdfBytes hmacH 32 ikm salt info 32).length = 32 := by
  simp only [hkdfBytes]
  norm_num
  rw [hkdfBlocks_one]
  simp [hH]

/- ------------------------------------------------------------------
Claim theorems.
------------------------------------------------------------------ -/

/-- C1: In EcdhDerived mode the session symmetric key is a pure,
deterministic function of the X25519 shared secret and the fixed
domain-separation label: for every 32-byte shared secret it equals the
HMAC (over SHA-512/256) keyed by the constant label
`MRAE_Box_Deoxys-II-256-128` applied to the shared secret, it is 32
bytes long, and the ECDH session key is exactly that function of the
X25519 output of the caller secret and the remote public key — so two
derivations from the same caller secret and remote public key are
bit-identical. -/
theorem ecdhSessionKeyIsLabeledHmac
    (sha512x256 : Bytes → Bytes) (hLen : ∀ m, (sha512x256 m).length = 32)
    (shared : Bytes) (hshared : shared.length = 32) :
    deriveSapphireSymmetricKeyFromShared sha512x256 shared
      = hmacBytes sha512x256 128 mraeBoxLabel shared
    ∧ (deriveSapphireSymmetricKeyFromShared sha512x256 shared).length = 32
    ∧ ∀ (x25519mult : Bytes → Bytes → Bytes) (contractPk callerSecret : Bytes),
        deriveEcdhKey sha512x256 x25519mult contractPk callerSecret
          = deriveSapphireSymmetricKeyFromShared sha512x256
              (x25519mult callerSecret contractPk) := by
  refine ⟨rfl, ?_, fun _ _ _ => rfl⟩
  simp [deriveSapphireSymmetricKeyFromShared, hmacBytes, hLen]

/-- Witness for C1: the theorem applied at a concrete 32-byte-output
hash and a concrete 32-byte shared secret. -/
theorem ecdhSessionKeyIsLabeledHmacWitness :
    (deriveSapphireSymmetricKeyFromShared (fun _ => List.replicate 32 0)
      (List.replicate 32 1)).length = 32 :=
  (ecdhSessionKeyIsLabeledHmac (fun _ => List.replicate 32 0)
    (fun _ => by simp) (List.replicate 32 1) (by simp)).2.1

/-- C2: the decryption pipeline hands the AEAD engine exactly the first
`NonceSize = 15` bytes of the stored 32-byte nonce, so two events that
differ only in the trailing 17 bytes of their nonces decrypt to the same
result with the same key and AAD, in both the key-mode and ECDH-mode
paths. -/
theorem nonceTruncatedTo15Bytes
    (aeadD : AeadDecrypt) (sha256 : Bytes → Bytes) (hkdfFlag : Bool)
    (key baseKey ciphertext aadBytes : Bytes) (nonce nonce' : Bytes)
    (h32 : nonce.length = 32) (h32' : nonce'.length = 32)
    (hsame : nonce.take NonceSize = nonce'.take NonceSize) :
    NonceSize = 15
    ∧ decryptKeyMode aeadD key nonce ciphertext aadBytes
        = (aeadKeyCheck key).bind
            (fun k => aeadD k (nonce.take 15) ciphertext aadBytes)
    ∧ decryptKeyMode aeadD key nonce ciphertext aadBytes
        = decryptKeyMode aeadD key nonce' ciphertext aadBytes
    ∧ decryptEcdhMode aeadD sha256 hkdfFlag baseKey nonce ciphertext aadBytes
        = decryptEcdhMode aeadD sha256 hkdfFlag baseKey nonce' ciphertext aadBytes := by
  refine ⟨rfl, rfl, ?_, ?_⟩
  · simp only [decryptKeyMode, hsame]
  · simp only [decryptEcdhMode, hsame]

/-- Witness for C2: two concrete 32-byte nonces sharing their first 15
bytes but with different trailing 17 bytes decrypt identically. -/
theorem nonceTruncatedTo15BytesWitness :
    decryptKeyMode (fun k n _ _ => Except.ok (k ++ n)) (List.replicate 32 0)
        (List.replicate 32 7) (List.replicate 3 1) []
      = decryptKeyMode (fun k n _ _ => Except.ok (k ++ n)) (List.replicate 32 0)
        (List.replicate 15 7 ++ List.replicate 17 9) (List.replicate 3 1) [] :=
  (nonceTruncatedTo15Bytes (fun k n _ _ => Except.ok (k ++ n))
    (fun _ => []) false (List.replicate 32 0) [] (List.replicate 3 1) []
    (List.replicate 32 7) (List.replicate 15 7 ++ List.replicate 17 9)
    (by simp) (by simp) (by decide)).2.2.1

/-- C3: the AAD builder returns the empty byte string in mode none; in
sender mode it returns the event's sender bytes verbatim and fails with
the missing-sender error when the event carries none; in context mode
it returns the 32-byte big-endian chain id immediately followed by the
contract address bytes (checked on the concrete chain id 0x5afd). -/
theorem aadBuilderModes (senderB : Bytes) (s : Option Bytes)
    (chainId : Nat) (contractAddr : Bytes) :
    getAadBytes AadMode.noAad s chainId contractAddr = Except.ok []
    ∧ getAadBytes AadMode.senderBound (Option.some senderB) chainId contractAddr
        = Except.ok senderB
    ∧ getAadBytes AadMode.senderBound Option.none chainId contractAddr
        = Except.error (DecErr.missingSender missingSenderMsg)
    ∧ getAadBytes AadMode.contextBound s chainId contractAddr
        = Except.ok (beBytes 32 chainId ++ contractAddr)
    ∧ (beBytes 32 chainId).length = 32
    ∧ beBytes 32 0x5afd = List.replicate 30 0 ++ [0x5a, 0xfd] := by
  refine ⟨rfl, rfl, rfl, rfl, ?_, by decide⟩
  simp [beBytes]

set_option maxRecDepth 10000 in
/-- C4 counterexample: on a transaction whose logs hold matching
`Encrypted` events from two different contract addresses and with no
target specified, the scan does raise the ambiguity error — but both
the printed warning and the thrown error are fixed strings in which
neither candidate address occurs, refuting the part of the claim that
says the error names the candidate addresses. -/
theorem ambiguityErrorDoesNotNameCandidates :
    scanReceipt Option.none [logAtA, logAtB]
      = ([multipleMatchesWarning],
         Except.error (DecErr.ambiguousMatch ambiguousMsg))
    ∧ strContains addrA multipleMatchesWarning = false
    ∧ strContains addrA ambiguousMsg = false
    ∧ strContains addrB multipleMatchesWarning = false
    ∧ strContains addrB ambiguousMsg = false := by
  refine ⟨by rfl, by rfl, by rfl, by rfl, by rfl⟩

/-- C4 amended: with no target contract address and two or more matching
`Encrypted` logs, decrypt prints the fixed re-run-with-a-contract
warning, raises the ambiguity error, and never silently returns a
match; the messages do not list the candidate addresses. -/
theorem ambiguousWithoutTargetRaises (logs : List RawLog)
    (m1 m2 : EventMatch) (ms : List EventMatch)
    (h : matchesOf Option.none logs = m1 :: m2 :: ms) :
    scanReceipt Option.none logs
      = ([multipleMatchesWarning],
         Except.error (DecErr.ambiguousMatch ambiguousMsg)) := by
  simp [scanReceipt, h]

set_option maxRecDepth 10000 in
/-- Witness for C4's amended theorem at a concrete two-contract
receipt. -/
theorem ambiguousWithoutTargetRaisesWitness :
    scanReceipt Option.none [logAtA, logAtB]
      = ([multipleMatchesWarning],
         Except.error (DecErr.ambiguousMatch ambiguousMsg)) :=
  ambiguousWithoutTargetRaises [logAtA, logAtB]
    { parsed := { sender := List.replicate 20 1, nonce := List.replicate 32 2,
                  ciphertext := List.replicate 20 3 }, address := addrA }
    { parsed := { sender := List.replicate 20 4, nonce := List.replicate 32 5,
                  ciphertext := List.replicate 20 6 }, address := addrB }
    [] (by decide)

/-- C5 counterexample: a log of the sender-less historical shape is not
parsed by the decrypt codec at all — its topic differs from the single
accepted signature — so a transaction holding only such a log fails
with the not-found error instead of yielding an event with an absent
sender. -/
theorem legacyShapeLogIsNotParsed :
    parseEncrypted (LogShape.legacyShape (List.replicate 32 2)
        (List.replicate 20 3)) = Option.none
    ∧ scanReceipt Option.none [legacyLogAtA]
        = ([], Except.error (DecErr.eventNotFound notFoundMsg)) := by
  exact ⟨rfl, by rfl⟩

/-- C5 amended: the decrypt codec accepts exactly the shape with an
explicit sender field; a log of the sender-less historical shape never
parses, and a receipt whose logs are all of that shape fails with the
not-found error rather than producing an event whose sender is
absent. -/
theorem codecAcceptsOnlySenderShape (sender n c : Bytes)
    (contract : Option String) (logs : List RawLog)
    (hleg : ∀ l ∈ logs, ∃ n' c', l.shape = LogShape.legacyShape n' c') :
    parseEncrypted (LogShape.senderShape sender n c)
      = Option.some { sender := sender, nonce := n, ciphertext := c }
    ∧ (∀ n' c', parseEncrypted (LogShape.legacyShape n' c') = Option.none)
    ∧ matchesOf (contract.map lowerStr) logs = []
    ∧ ∃ msg, (scanReceipt contract logs).2
        = Except.error (DecErr.eventNotFound msg) := by
  refine ⟨rfl, fun _ _ => rfl,
    matchesOf_legacy_nil (contract.map lowerStr) logs hleg, ?_⟩
  cases contract with
  | none =>
    have hm0 : matchesOf Option.none logs = [] :=
      matchesOf_legacy_nil Option.none logs hleg
    exact ⟨notFoundMsg, by simp [scanReceipt, hm0]⟩
  | some cstr =>
    have hm1 : matchesOf (Option.some (lowerStr cstr)) logs = [] :=
      matchesOf_legacy_nil (Option.some (lowerStr cstr)) logs hleg
    exact ⟨notFoundForContractMsg, by simp [scanReceipt, hm1]⟩

/-- Witness for C5's amended theorem at a concrete legacy-only
receipt. -/
theorem codecAcceptsOnlySenderShapeWitness :
    ∃ msg, (scanReceipt Option.none [legacyLogAtA]).2
      = Except.error (DecErr.eventNotFound msg) :=
  (codecAcceptsOnlySenderShape [] [] [] Option.none [legacyLogAtA]
    (fun l hl => by
      simp only [List.mem_singleton] at hl
      subst hl
      exact ⟨List.replicate 32 2, List.replicate 20 3, rfl⟩)).2.2.2

/-- C6: in PreSharedKey mode the key used is the caller-supplied value
verbatim (or the freshly generated random 32-byte value when absent); a
supplied key that is not exactly 32 bytes is rejected with the
invalid-key-length error before any decryption (for every AEAD engine
and every event), and before the emit call is sent; a supplied ECDH
caller secret that is not exactly 32 bytes is rejected before use, on
the emit path and on the key-derivation path. -/
theorem lengthValidationBeforeCrypto (k s fresh : Bytes)
    (hk : k.length ≠ 32) (hs : s.length ≠ 32) :
    (∀ (kk fresh' : Bytes), resolveEmitKey (Option.some kk) fresh' = kk)
    ∧ (∀ fresh' : Bytes, resolveEmitKey Option.none fresh' = fresh')
    ∧ (∀ (aeadD : AeadDecrypt) (nonce ct aad : Bytes),
        decryptKeyMode aeadD k nonce ct aad
          = Except.error (DecErr.invalidKeyLength invalidKeySizeMsg))
    ∧ emitKeyModeCall (Option.some k) fresh
        = Except.error (DecErr.invalidKeyLength invalidBytes32Msg)
    ∧ emitEcdhPrep (Option.some s) fresh
        = Except.error (DecErr.invalidSecretLength invalidSecretMsg)
    ∧ (∀ (sha512x256 : Bytes → Bytes) (x25519mult : Bytes → Bytes → Bytes)
        (contractPk : Bytes),
        deriveEcdhKeyChecked sha512x256 x25519mult contractPk s
          = Except.error (DecErr.invalidSecretLength invalidScalarMsg)) := by
  refine ⟨fun _ _ => rfl, fun _ => rfl, ?_, ?_, ?_, ?_⟩
  · intro aeadD nonce ct aad
    simp [decryptKeyMode, aeadKeyCheck, KeySize, hk, Except.bind]
  · simp [emitKeyModeCall, encodeBytes32, resolveEmitKey, hk]
  · simp [emitEcdhPrep, hs]
  · intro _ _ _
    simp [deriveEcdhKeyChecked, hs]

/-- Witness for C6 at a 31-byte key and a 33-byte secret. -/
theorem lengthValidationBeforeCryptoWitness :
    decryptKeyMode (fun k n _ _ => Except.ok (k ++ n)) (List.replicate 31 0)
        (List.replicate 32 7) [] []
      = Except.error (DecErr.invalidKeyLength invalidKeySizeMsg)
    ∧ emitEcdhPrep (Option.some (List.replicate 33 0)) []
      = Except.error (DecErr.invalidSecretLength invalidSecretMsg) := by
  have h := lengthValidationBeforeCrypto (List.replicate 31 0)
    (List.replicate 33 0) [] (by decide) (by decide)
  exact ⟨h.2.2.1 (fun k n _ _ => Except.ok (k ++ n)) (List.replicate 32 7) [] [],
    h.2.2.2.2.1⟩

/-- C7: when a target contract address is specified, the decrypt scan is
unchanged by deleting every log whose emitting address differs from the
target — such logs are discarded before any decode is attempted — and
whenever no log matches at all, the scan fails with the not-found
error. -/
theorem targetFilterAndNotFound (c : String) (logs : List RawLog)
    (contract : Option String)
    (hnone : matchesOf (contract.map lowerStr) logs = []) :
    scanReceipt (Option.some c) logs
      = scanReceipt (Option.some c)
          (logs.filter (fun l => lowerStr l.address == lowerStr c))
    ∧ ∃ msg, scanReceipt contract logs
        = ([], Except.error (DecErr.eventNotFound msg)) := by
  constructor
  · simp only [scanReceipt, Option.map]
    rw [matchesOf_filter_target (lowerStr c) logs]
  · cases contract with
    | none =>
      have hm0 : matchesOf Option.none logs = [] := hnone
      exact ⟨notFoundMsg, by simp [scanReceipt, hm0]⟩
    | some cstr =>
      have hm1 : matchesOf (Option.some (lowerStr cstr)) logs = [] := hnone
      exact ⟨notFoundForContractMsg, by simp [scanReceipt, hm1]⟩

/-- Witness for C7 at a receipt holding only an unrelated event. -/
theorem targetFilterAndNotFoundWitness :
    ∃ msg, scanReceipt Option.none [otherLogAtB]
      = ([], Except.error (DecErr.eventNotFound msg)) :=
  (targetFilterAndNotFound addrA [otherLogAtB] Option.none (by rfl)).2

/-- C8: the per-message key derivation option is off by default; when
enabled in EcdhDerived mode, the key used by the decrypt call is the
RFC 5869 HKDF-SHA256 expansion of the session key salted with the
event's 15-byte nonce prefix and the fixed context string
`sapphire:events`, a 32-byte one-time key; when disabled, the session
key itself is passed to the engine unchanged. -/
theorem perMessageHkdfKey (sha256 : Bytes → Bytes)
    (hLen : ∀ m, (sha256 m).length = 32)
    (aeadD : AeadDecrypt) (baseKey nonce ct aad : Bytes) :
    hkdfFlagDefault = false
    ∧ ecdhMessageKey sha256 false baseKey (nonce.take NonceSize) = baseKey
    ∧ ecdhMessageKey sha256 true baseKey (nonce.take NonceSize)
        = hkdfBytes (hmacBytes sha256 64) 32 baseKey (nonce.take NonceSize)
            sapphireEventsInfo 32
    ∧ (ecdhMessageKey sha256 true baseKey (nonce.take NonceSize)).length = 32
    ∧ decryptEcdhMode aeadD sha256 false baseKey nonce ct aad
        = (aeadKeyCheck baseKey).bind
            (fun kk => aeadD kk (nonce.take NonceSize) ct aad)
    ∧ decryptEcdhMode aeadD sha256 true baseKey nonce ct aad
        = (aeadKeyCheck
            (hkdfBytes (hmacBytes sha256 64) 32 baseKey (nonce.take NonceSize)
              sapphireEventsInfo 32)).bind
            (fun kk => aeadD kk (nonce.take NonceSize) ct aad) := by
  refine ⟨rfl, rfl, rfl, ?_, rfl, rfl⟩
  have hH : ∀ k m, (hmacBytes sha256 64 k m).length = 32 :=
    fun k m => hmacBytes_length sha256 hLen 64 k m
  have hlen32 := hkdfBytes_len_32 (hmacBytes sha256 64) hH baseKey
    (nonce.take NonceSize) sapphireEventsInfo
  simpa [ecdhMessageKey] using hlen32

/-- Witness for C8 at a concrete 32-byte-output hash. -/
theorem perMessageHkdfKeyWitness :
    (ecdhMessageKey (fun _ => List.replicate 32 0) true (List.replicate 32 3)
      ((List.replicate 32 5).take NonceSize)).length = 32 :=
  (perMessageHkdfKey (fun _ => List.replicate 32 0) (fun _ => by simp)
    (fun k _ _ _ => Except.ok k) (List.replicate 32 3) (List.replicate 32 5)
    [] []).2.2.2.1

/-- C9: during the listen action a failing event is caught and reported
in place and never terminates the processing of the stream: delivered
events before and after it are handled exactly as they would be on
their own, and every delivered event produces exactly one report. -/
theorem listenIsolatesPerEventFailures
    (aeadD : AeadDecrypt) (key : Bytes) (aadmode : AadMode) (chainId : Nat)
    (contractAddr : Bytes) (xs ys : List DeliveredEvent) (b : DeliveredEvent)
    (e : DecErr)
    (hb : listenBody aeadD key aadmode chainId contractAddr b
      = Except.error e) :
    runListen (listenCallback aeadD key aadmode chainId contractAddr)
        (xs ++ b :: ys)
      = runListen (listenCallback aeadD key aadmode chainId contractAddr) xs
        ++ ListenReport.failedMsg listenFailureMsg
          :: runListen (listenCallback aeadD key aadmode chainId contractAddr) ys
    ∧ ∀ evs : List DeliveredEvent,
        (runListen (listenCallback aeadD key aadmode chainId contractAddr)
          evs).length = evs.length := by
  constructor
  · simp [runListen, listenCallback, hb]
  · intro evs
    simp [runListen]

/-- Witness for C9: a sender-less delivered event under sender-bound
AAD fails, and the events after it are still processed. -/
theorem listenIsolatesPerEventFailuresWitness :
    runListen (listenCallback (fun k _ _ _ => Except.ok k)
        (List.replicate 32 0) AadMode.senderBound 23293 (List.replicate 20 9))
        ([] ++ { nonce := List.replicate 32 2, ciphertext := [7],
                 senderNamed := Option.none, firstArg := Option.none }
          :: [{ nonce := List.replicate 32 3, ciphertext := [8],
                senderNamed := Option.some (List.replicate 20 4),
                firstArg := Option.none }])
      = runListen (listenCallback (fun k _ _ _ => Except.ok k)
          (List.replicate 32 0) AadMode.senderBound 23293 (List.replicate 20 9)) []
        ++ ListenReport.failedMsg listenFailureMsg
          :: runListen (listenCallback (fun k _ _ _ => Except.ok k)
              (List.replicate 32 0) AadMode.senderBound 23293
              (List.replicate 20 9))
            [{ nonce := List.replicate 32 3, ciphertext := [8],
               senderNamed := Option.some (List.replicate 20 4),
               firstArg := Option.none }] :=
  (listenIsolatesPerEventFailures (fun k _ _ _ => Except.ok k)
    (List.replicate 32 0) AadMode.senderBound 23293 (List.replicate 20 9)
    []
    [{ nonce := List.replicate 32 3, ciphertext := [8],
       senderNamed := Option.some (List.replicate 20 4),
       firstArg := Option.none }]
    { nonce := List.replicate 32 2, ciphertext := [7],
      senderNamed := Option.none, firstArg := Option.none }
    (DecErr.missingSender missingSenderMsg) (by rfl)).1

/-- C10: when a target contract address is specified and it emitted two
or more matching `Encrypted` logs in the transaction, decrypt silently
uses the first matching log — no warning, no ambiguity error; the
multiple-match check applies only when no target was given. -/
theorem targetedMultipleMatchesPicksFirst (c : String) (logs : List RawLog)
    (m1 m2 : EventMatch) (ms : List EventMatch)
    (h : matchesOf (Option.some (lowerStr c)) logs = m1 :: m2 :: ms) :
    scanReceipt (Option.some c) logs = ([], Except.ok m1) := by
  simp [scanReceipt, h]

set_option maxRecDepth 10000 in
/-- Witness for C10: two matching logs at the same targeted address;
the scan returns the first and raises nothing. -/
theorem targetedMultipleMatchesPicksFirstWitness :
    scanReceipt (Option.some addrA) [logAtA, logAtA] =
      ([], Except.ok
        { parsed := { sender := List.replicate 20 1,
                      nonce := List.replicate 32 2,
                      ciphertext := List.replicate 20 3 },
          address := addrA }) :=
  targetedMultipleMatchesPicksFirst addrA [logAtA, logAtA]
    { parsed := { sender := List.replicate 20 1, nonce := List.replicate 32 2,
                  ciphertext := List.replicate 20 3 }, address := addrA }
    { parsed := { sender := List.replicate 20 1, nonce := List.replicate 32 2,
                  ciphertext := List.replicate 20 3 }, address := addrA }
    [] (by decide)

end EncEvents
